import Mathlib

/-!
Verification of the `github_pipeline` repository (a Dagster pipeline that
fetches GitHub repository metadata).  The development shallowly embeds the
two source files `resources.py` and `utils.py`:

* the HTTP layer is abstracted by an oracle `server : String → String →
  Response` mapping an HTTP method and a request path to the response the
  network returns for it (query parameters, authentication headers and the
  logger are glue that no claim depends on and are absorbed into the oracle);
* JSON values are the inductive `Json`; Python dictionaries are association
  lists whose lookup (`dictGet`) and assignment (`dictSet`) mirror Python
  `dict` access on duplicate-free key lists;
* Python exceptions (`KeyError`, `TypeError`, `ValueError` out of
  `datetime.strptime`, iteration over a non-list page body) are the error
  side of `Except Err`; running out of `fuel` in the pagination loop models
  a loop that is still running after `fuel` requests (`Err.fuelOut`);
* `datetime.strptime(s, '%Y-%m-%dT%H:%M:%SZ')` is `strptimeZ` (zero-padded
  fixed-width fields with the range validation the `datetime` constructor
  performs), and `(closed_at - created_at).days` is `timedeltaDays`
  (floor division of the signed second difference by 86400, matching the
  normalisation of `datetime.timedelta`).
-/

namespace GithubPipeline

/-- JSON values as returned by `response.json()`. -/
inductive Json where
  | nullJ : Json
  | boolJ : Bool → Json
  | num : Rat → Json
  | str : String → Json
  | arr : List Json → Json
  | obj : List (String × Json) → Json

/-- Errors: Python exceptions raised while processing a response, plus
`fuelOut`, which marks that the pagination loop was still running after the
given number of requests. -/
inductive Err where
  | fuelOut : Err
  | nonArrayBody : Err
  | typeMismatch : Err
  | parseError : Err
  | keyError : String → Err
deriving DecidableEq

/-- An HTTP response: status code, raw text, parsed JSON body and the
optional `Link` header (`response.headers.get('Link')`). -/
structure Response where
  status : Nat
  text : String
  jsonBody : Json
  linkHeader : Option String

/-- The network oracle: HTTP method and path to response. -/
abbrev Server := String → String → Response

/-- Embeds `requests.Response.raise_for_status`: raises `HTTPError` exactly
when the status code is 4xx or 5xx. -/
def raise_for_status (r : Response) : Except String Unit :=
  if 400 ≤ r.status ∧ r.status < 600 then
    Except.error ("HTTPError " ++ toString r.status)
  else
    Except.ok ()

/-- Embeds `GitHubAPIResource.execute_request` (resources.py lines 27-79):
performs the request, calls `raise_for_status`, catches the `HTTPError`
(logging it) and returns the response object either way.  The boolean
records whether the `except requests.exceptions.HTTPError` branch ran,
i.e. whether an error was caught and logged. -/
def execute_request (server : Server) (method : String) (path : String) :
    Response × Bool :=
  let response := server method path
  match raise_for_status response with
  | Except.ok _ => (response, false)
  | Except.error _ => (response, true)

/-! ### Link-header parsing

`re.search(r'<(.*?)>; rel="next"', link_attr)` with Python's leftmost,
non-greedy matching: the match starts at the leftmost `<` from which the
closing text `>; rel="next"` can be reached, and the group is the shortest
run of non-newline characters between them. -/

/-- The literal part of the pattern that closes the capture group. -/
def closeMark : List Char := ">; rel=\"next\"".data

/-- Whether `pat` occurs at the very start of `s`. -/
def beginsWith : List Char → List Char → Bool
  | [], _ => true
  | _ :: _, [] => false
  | a :: pat, b :: s => a = b && beginsWith pat s

/-- Non-greedy `(.*?)` followed by `closeMark`: the shortest prefix of
newline-free characters after which `closeMark` starts. -/
def scanContent : List Char → Option (List Char)
  | [] => none
  | c :: rest =>
    if beginsWith closeMark (c :: rest) then some []
    else if c = '\n' then none
    else (scanContent rest).map (fun cs => c :: cs)

/-- Leftmost search for `<(.*?)>; rel="next"`: try each position in turn. -/
def searchFrom : List Char → Option (List Char)
  | [] => none
  | c :: rest =>
    if c = '<' then
      match scanContent rest with
      | some content => some content
      | none => searchFrom rest
    else searchFrom rest

/-- `match.group(1)` of `re.search(r'<(.*?)>; rel="next"', s)`, or `none`
when the pattern does not match. -/
def findNextLink (s : String) : Option String :=
  (searchFrom s.data).map (fun cs => String.mk cs)

/-! ### The pagination loop (`handle_repo_item`) -/

/-- The `while True` loop of `handle_repo_item` (resources.py lines
170-189), recursing on `fuel` (the maximal number of requests; running out
of fuel models a loop still running, `Err.fuelOut`).  Each recursive level
performs exactly one `execute_request`; the second component of the result
is the list of paths requested, in order, so its length is the number of
GET requests issued.  The first component is `nested_list`: the body of
every page that was appended.  A non-list page body is modelled as
`Err.nonArrayBody` (iterating it in the flattening comprehension is outside
the API contract).  Mirrors the source checks in order: `if not items:
break`, then `if not link_attr: break` (where `headers.get` returning an
absent header or an empty string are both falsy), then `if not match:
break`, else `path = match.group(1)`. -/
def handle_repo_item_loop (server : Server) :
    Nat → String → Except Err (List (List Json) × List String)
  | 0, _ => Except.error Err.fuelOut
  | fuel + 1, path =>
    let response := (execute_request server "GET" path).1
    match response.jsonBody with
    | Json.arr items =>
      if items.isEmpty then Except.ok ([], [path])
      else
        match response.linkHeader with
        | none => Except.ok ([items], [path])
        | some link_attr =>
          if link_attr = "" then Except.ok ([items], [path])
          else
            match findNextLink link_attr with
            | none => Except.ok ([items], [path])
            | some nextPath =>
              match handle_repo_item_loop server fuel nextPath with
              | Except.ok (pages, visited) =>
                Except.ok (items :: pages, path :: visited)
              | Except.error e => Except.error e
    | _ => Except.error Err.nonArrayBody

/-- The initial request path of `handle_repo_item`:
`f'/repos/{owner}/{repo}/{suffix}'`. -/
def itemPath (owner repo suffix : String) : String :=
  "/repos/" ++ owner ++ "/" ++ repo ++ "/" ++ suffix

/-- Embeds `GitHubAPIResource.handle_repo_item` (resources.py lines
143-192): run the pagination loop from the item path and flatten
`nested_list`. -/
def handle_repo_item (server : Server) (fuel : Nat)
    (owner repo suffix : String) : Except Err (List Json) :=
  match handle_repo_item_loop server fuel (itemPath owner repo suffix) with
  | Except.ok (nested_list, _) => Except.ok nested_list.flatten
  | Except.error e => Except.error e

/-! ### Timestamps

`datetime.strptime(s, '%Y-%m-%dT%H:%M:%SZ')` and
`(closed_at - created_at).days`. -/

/-- A parsed `datetime` (proleptic Gregorian calendar, year ≥ 1). -/
structure PyDateTime where
  year : Nat
  month : Nat
  day : Nat
  hour : Nat
  minute : Nat
  second : Nat
deriving DecidableEq

/-- Value of a decimal digit character. -/
def digitVal (c : Char) : Option Nat :=
  if c.isDigit then some (c.toNat - 48) else none

/-- Read exactly two decimal digits. -/
def read2 : List Char → Option (Nat × List Char)
  | a :: b :: rest => do
    let x ← digitVal a
    let y ← digitVal b
    some (10 * x + y, rest)
  | _ => none

/-- Read exactly four decimal digits. -/
def read4 : List Char → Option (Nat × List Char)
  | a :: b :: c :: d :: rest => do
    let x ← digitVal a
    let y ← digitVal b
    let z ← digitVal c
    let w ← digitVal d
    some (1000 * x + 100 * y + 10 * z + w, rest)
  | _ => none

/-- Consume one expected literal character. -/
def expectChar (c : Char) : List Char → Option (List Char)
  | d :: rest => if d = c then some rest else none
  | [] => none

/-- Gregorian leap-year rule. -/
def isLeap (y : Nat) : Bool :=
  (y % 4 == 0 && y % 100 != 0) || y % 400 == 0

/-- Month lengths for a (non-)leap year. -/
def monthDays (leap : Bool) : List Nat :=
  [31, if leap then 29 else 28, 31, 30, 31, 30, 31, 31, 30, 31, 30, 31]

/-- Number of days in month `m` (1-12) of year `y`. -/
def daysInMonth (y m : Nat) : Nat :=
  (monthDays (isLeap y)).getD (m - 1) 0

/-- Days of year `y` that precede the first day of month `m`. -/
def daysBeforeMonth (y m : Nat) : Nat :=
  ((monthDays (isLeap y)).take (m - 1)).foldl (fun a b => a + b) 0

/-- `date(y, m, d).toordinal()`: day number in the proleptic Gregorian
calendar with `0001-01-01` mapped to 1. -/
def toOrdinal (y m d : Nat) : Nat :=
  365 * (y - 1) + (y - 1) / 4 - (y - 1) / 100 + (y - 1) / 400
    + daysBeforeMonth y m + d

/-- Seconds of a `PyDateTime` counted from the epoch `0001-01-01T00:00:00`. -/
def toSeconds (t : PyDateTime) : Int :=
  ((toOrdinal t.year t.month t.day) * 86400
    + t.hour * 3600 + t.minute * 60 + t.second : Nat)

/-- `(b - a).days` for two `datetime`s: `datetime.timedelta` normalises so
that `days` is the floor of the signed difference in units of one day. -/
def timedeltaDays (a b : PyDateTime) : Int :=
  Int.fdiv (toSeconds b - toSeconds a) 86400

/-- `datetime.strptime(s, '%Y-%m-%dT%H:%M:%SZ')` on the zero-padded
timestamps the GitHub API returns: four year digits, dashes, two digits for
each remaining field, literal `T`, colons and a final literal `Z`, nothing
after it; the field ranges the `datetime` constructor enforces are
validated (month 1-12, day within the month, hour < 24, minute < 60,
second < 60, year ≥ 1). -/
def parseDateZ (cs : List Char) : Option PyDateTime := do
  let (y, cs) ← read4 cs
  let cs ← expectChar '-' cs
  let (mo, cs) ← read2 cs
  let cs ← expectChar '-' cs
  let (d, cs) ← read2 cs
  let cs ← expectChar 'T' cs
  let (h, cs) ← read2 cs
  let cs ← expectChar ':' cs
  let (mi, cs) ← read2 cs
  let cs ← expectChar ':' cs
  let (s, cs) ← read2 cs
  let cs ← expectChar 'Z' cs
  match cs with
  | _ :: _ => none
  | [] =>
    if 1 ≤ y ∧ 1 ≤ mo ∧ mo ≤ 12 ∧ 1 ≤ d ∧ d ≤ daysInMonth y mo
        ∧ h < 24 ∧ mi < 60 ∧ s < 60 then
      some ⟨y, mo, d, h, mi, s⟩
    else none

/-- `strptime` as an `Except`: a string that does not match the format (or
an out-of-range field) raises `ValueError`. -/
def strptimeZ (s : String) : Except Err PyDateTime :=
  match parseDateZ s.data with
  | some t => Except.ok t
  | none => Except.error Err.parseError

/-! ### Python dictionaries as association lists -/

/-- `d.get(k)` / `d[k]`-lookup on a Python dictionary (keys are unique, so
first match is the match). -/
def dictGet (d : List (String × Json)) (k : String) : Option Json :=
  match d with
  | [] => none
  | p :: rest => if p.1 == k then some p.2 else dictGet rest k

/-- `d[k] = v`: overwrite the value in place when the key exists, append a
new entry otherwise (Python dictionaries preserve insertion order). -/
def dictSet (d : List (String × Json)) (k : String) (v : Json) :
    List (String × Json) :=
  match d with
  | [] => [(k, v)]
  | p :: rest => if p.1 == k then (k, v) :: rest else p :: dictSet rest k v

/-- `issue[k]`: `KeyError` when the key is absent, `TypeError`-like failure
when the item is not a dictionary. -/
def itemGet (issue : Json) (k : String) : Except Err Json :=
  match issue with
  | Json.obj fields =>
    match dictGet fields k with
    | some v => Except.ok v
    | none => Except.error (Err.keyError k)
  | _ => Except.error Err.typeMismatch

/-- `k in issue.keys()` (only reached on dictionaries in the source). -/
def hasKey (issue : Json) (k : String) : Bool :=
  match issue with
  | Json.obj fields => (dictGet fields k).isSome
  | _ => false

/-- Python `==` between a JSON value and a string literal: true exactly for
the equal string, false for every non-string value. -/
def jeq (j : Json) (s : String) : Bool :=
  match j with
  | Json.str t => t == s
  | _ => false

/-- `issue[k]` passed to `strptime`: `KeyError` when absent, `TypeError`
when the value is not a string, `ValueError` when it does not parse. -/
def parseField (issue : Json) (k : String) : Except Err PyDateTime := do
  let v ← itemGet issue k
  match v with
  | Json.str s => strptimeZ s
  | _ => Except.error Err.typeMismatch

/-! ### `handle_issues` -/

/-- The mutable counters of the `handle_issues` loop (resources.py lines
232-237), all initialised to zero. -/
structure IssueAcc where
  open_issues : Nat
  closed_issues : Nat
  open_prs : Nat
  closed_prs : Nat
  issues_duration : Int
  prs_duration : Int
deriving DecidableEq

/-- The initial counters. -/
def initAcc : IssueAcc := ⟨0, 0, 0, 0, 0, 0⟩

/-- One iteration of the `for issue in issues` loop of `handle_issues`
(resources.py lines 240-256): classify by `state` and presence of the
`pull_request` key; for closed items parse `created_at` and `closed_at`
and add `(closed_at - created_at).days` to the matching duration sum; an
item whose `state` is neither `'open'` nor `'closed'` changes nothing. -/
def processIssue (acc : IssueAcc) (issue : Json) : Except Err IssueAcc := do
  let st ← itemGet issue "state"
  if jeq st "open" then
    if hasKey issue "pull_request" then
      pure { acc with open_prs := acc.open_prs + 1 }
    else
      pure { acc with open_issues := acc.open_issues + 1 }
  else if jeq st "closed" then
    if hasKey issue "pull_request" then do
      let created_at ← parseField issue "created_at"
      let closed_at ← parseField issue "closed_at"
      pure { acc with closed_prs := acc.closed_prs + 1,
                      prs_duration :=
                        acc.prs_duration + timedeltaDays created_at closed_at }
    else do
      let created_at ← parseField issue "created_at"
      let closed_at ← parseField issue "closed_at"
      pure { acc with closed_issues := acc.closed_issues + 1,
                      issues_duration :=
                        acc.issues_duration
                          + timedeltaDays created_at closed_at }
  else
    pure acc

/-- The whole counting loop: fold `processIssue` over the fetched items. -/
def countIssues (issues : List Json) : Except Err IssueAcc :=
  issues.foldlM processIssue initAcc

/-- The six values `handle_issues` returns, with the source's names. -/
structure IssueStats where
  open_issues : Nat
  closed_issues : Nat
  open_prs : Nat
  closed_prs : Nat
  average_issue_duration : Rat
  average_pr_duration : Rat
deriving DecidableEq

/-- The part of `handle_issues` after the fetch (resources.py lines
231-263): run the counting loop, then compute each average as
`duration / count if count > 0 else 0`. -/
def handle_issues_body (issues : List Json) : Except Err IssueStats := do
  let acc ← countIssues issues
  let average_pr_duration : Rat :=
    if acc.closed_prs > 0 then
      (acc.prs_duration : Rat) / (acc.closed_prs : Rat)
    else 0
  let average_issue_duration : Rat :=
    if acc.closed_issues > 0 then
      (acc.issues_duration : Rat) / (acc.closed_issues : Rat)
    else 0
  pure ⟨acc.open_issues, acc.closed_issues, acc.open_prs, acc.closed_prs,
        average_issue_duration, average_pr_duration⟩

/-- Embeds `GitHubAPIResource.handle_issues` (resources.py lines 216-263):
fetch all items with `suffix='issues?state=all'`, then count. -/
def handle_issues (server : Server) (fuel : Nat) (owner repo : String) :
    Except Err IssueStats :=
  (handle_repo_item server fuel owner repo "issues?state=all").bind
    handle_issues_body

/-- Embeds `GitHubAPIResource.handle_releases` (resources.py lines
194-214): the length of the fetched release list. -/
def handle_releases (server : Server) (fuel : Nat) (owner repo : String) :
    Except Err Nat :=
  (handle_repo_item server fuel owner repo "releases").map List.length

/-- Embeds `GitHubAPIResource.handle_main_repo_endpoint` (resources.py
lines 121-141): one GET on `/repos/{owner}/{repo}`, returning
`response.json()`. -/
def handle_main_repo_endpoint (server : Server) (owner repo : String) :
    Json :=
  ((execute_request server "GET" ("/repos/" ++ owner ++ "/" ++ repo)).1).jsonBody

/-- A payload used as a dictionary; anything else fails like Python's
item assignment on a non-dictionary. -/
def asDict (j : Json) : Except Err (List (String × Json)) :=
  match j with
  | Json.obj fields => Except.ok fields
  | _ => Except.error Err.typeMismatch

/-- Embeds `GitHubAPIResource.get_metadata` (resources.py lines 81-119):
start from the main-endpoint payload, store `release_count`, then store the
six issue/PR statistics, each by dictionary assignment. -/
def get_metadata (server : Server) (fuel : Nat) (owner repo : String) :
    Except Err (List (String × Json)) := do
  let payload := handle_main_repo_endpoint server owner repo
  let metadata ← asDict payload
  let release_count ← handle_releases server fuel owner repo
  let metadata := dictSet metadata "release_count" (Json.num release_count)
  let stats ← handle_issues server fuel owner repo
  let metadata := dictSet metadata "open_issues" (Json.num stats.open_issues)
  let metadata := dictSet metadata "closed_issues"
    (Json.num stats.closed_issues)
  let metadata := dictSet metadata "open_prs" (Json.num stats.open_prs)
  let metadata := dictSet metadata "closed_prs" (Json.num stats.closed_prs)
  let metadata := dictSet metadata "average_issue_duration"
    (Json.num stats.average_issue_duration)
  let metadata := dictSet metadata "average_pr_duration"
    (Json.num stats.average_pr_duration)
  pure metadata

/-- Embeds `extract_metadata` (utils.py lines 33-58): the report column as
an ordered list of the ten report fields; each value is the `.get` of the
corresponding source key, so an absent key yields `none` (Python `None`). -/
def extract_metadata (repo_matadata : List (String × Json)) :
    List (String × Option Json) :=
  [("stars", dictGet repo_matadata "stargazers_count"),
   ("forks", dictGet repo_matadata "forks_count"),
   ("watchers", dictGet repo_matadata "subscribers_count"),
   ("releases", dictGet repo_matadata "release_count"),
   ("open issues", dictGet repo_matadata "open_issues"),
   ("closed issues", dictGet repo_matadata "closed_issues"),
   ("avg days until issue was closed",
     dictGet repo_matadata "average_issue_duration"),
   ("open PRs", dictGet repo_matadata "open_prs"),
   ("closed PRs", dictGet repo_matadata "closed_prs"),
   ("avg days until PR was closed",
     dictGet repo_matadata "average_pr_duration")]

/-! ### Helper lemmas -/

/-- Bind on a successful `Except` computation. -/
theorem except_bind_ok {α β : Type} (a : α) (f : α → Except Err β) :
    (Except.ok a >>= f) = f a := rfl

/-- Bind on a failed `Except` computation. -/
theorem except_bind_error {α β : Type} (e : Err) (f : α → Except Err β) :
    ((Except.error e : Except Err α) >>= f) = Except.error e := rfl

/-- `pure` of the `Except` monad. -/
theorem except_pure {α : Type} (a : α) :
    (pure a : Except Err α) = Except.ok a := rfl

/-- `execute_request` hands the response of the network back unchanged,
whichever branch of the `try` runs. -/
theorem execute_request_fst (server : Server) (method path : String) :
    (execute_request server method path).1 = server method path := by
  show (match raise_for_status (server method path) with
    | Except.ok _ => (server method path, false)
    | Except.error _ => (server method path, true)).1 = server method path
  cases raise_for_status (server method path) <;> rfl

/-- Inversion for `handle_issues_body`: a successful run is a successful
counting loop followed by the two guarded average computations. -/
theorem handle_issues_body_ok {issues : List Json} {s : IssueStats}
    (h : handle_issues_body issues = Except.ok s) :
    ∃ acc, countIssues issues = Except.ok acc ∧
      s = ⟨acc.open_issues, acc.closed_issues, acc.open_prs, acc.closed_prs,
        (if acc.closed_issues > 0 then
          (acc.issues_duration : Rat) / (acc.closed_issues : Rat) else 0),
        (if acc.closed_prs > 0 then
          (acc.prs_duration : Rat) / (acc.closed_prs : Rat) else 0)⟩ := by
  unfold handle_issues_body at h
  cases hc : countIssues issues with
  | error e =>
    rw [hc, except_bind_error] at h
    exact absurd h (by simp)
  | ok acc =>
    rw [hc, except_bind_ok] at h
    refine ⟨acc, rfl, ?_⟩
    rw [except_pure] at h
    injection h with h'
    exact h'.symm

/-! ### Claims -/

/-- C7: for every request whose response has an HTTP 4xx or 5xx status,
`execute_request` catches the `HTTPError` raised by `raise_for_status`,
logs it (the boolean component records that the `except` branch ran) and
returns the response object to the caller without re-raising. -/
theorem execute_request_swallows_http_error
    (server : Server) (method path : String)
    (h4 : 400 ≤ (server method path).status)
    (h5 : (server method path).status < 600) :
    execute_request server method path = (server method path, true) := by
  show (match raise_for_status (server method path) with
    | Except.ok _ => (server method path, false)
    | Except.error _ => (server method path, true)) =
      (server method path, true)
  unfold raise_for_status
  rw [if_pos ⟨h4, h5⟩]

/-- A server that always answers 404 with a JSON error body. -/
def notFoundServer : Server := fun _ _ =>
  { status := 404, text := "Not Found",
    jsonBody := Json.obj [("message", Json.str "Not Found")],
    linkHeader := none }

/-- Witness for C7 at a concrete 404 response. -/
theorem execute_request_swallows_http_error_witness :
    execute_request notFoundServer "GET" "/repos/o/r" =
      (notFoundServer "GET" "/repos/o/r", true) :=
  execute_request_swallows_http_error notFoundServer "GET" "/repos/o/r"
    (by decide) (by decide)

/-- C8: `extract_metadata` always returns a report column with exactly the
ten report fields in order, and each field's value is the `.get` of its
source key, so a key absent from the input dictionary yields `none`
(Python `None`) for that field instead of raising. -/
theorem extract_metadata_total_fields (m : List (String × Json)) :
    (extract_metadata m).map Prod.fst =
      ["stars", "forks", "watchers", "releases", "open issues",
       "closed issues", "avg days until issue was closed", "open PRs",
       "closed PRs", "avg days until PR was closed"] ∧
    (extract_metadata m).lookup "stars" =
      some (dictGet m "stargazers_count") ∧
    (extract_metadata m).lookup "forks" = some (dictGet m "forks_count") ∧
    (extract_metadata m).lookup "watchers" =
      some (dictGet m "subscribers_count") ∧
    (extract_metadata m).lookup "releases" =
      some (dictGet m "release_count") ∧
    (extract_metadata m).lookup "open issues" =
      some (dictGet m "open_issues") ∧
    (extract_metadata m).lookup "closed issues" =
      some (dictGet m "closed_issues") ∧
    (extract_metadata m).lookup "avg days until issue was closed" =
      some (dictGet m "average_issue_duration") ∧
    (extract_metadata m).lookup "open PRs" = some (dictGet m "open_prs") ∧
    (extract_metadata m).lookup "closed PRs" =
      some (dictGet m "closed_prs") ∧
    (extract_metadata m).lookup "avg days until PR was closed" =
      some (dictGet m "average_pr_duration") :=
  ⟨rfl, rfl, rfl, rfl, rfl, rfl, rfl, rfl, rfl, rfl, rfl⟩

/-- C4: a zero closed-issue count (respectively zero closed-PR count)
yields average 0; the guarded division is never reached, so no division
error can occur. -/
theorem handle_issues_zero_closed_avg_zero :
    (∀ issues s, handle_issues_body issues = Except.ok s →
      s.closed_issues = 0 → s.average_issue_duration = 0) ∧
    (∀ issues s, handle_issues_body issues = Except.ok s →
      s.closed_prs = 0 → s.average_pr_duration = 0) := by
  constructor <;>
    · intro issues s h hz
      obtain ⟨acc, _, rfl⟩ := handle_issues_body_ok h
      simp only [IssueStats.closed_issues, IssueStats.closed_prs] at hz
      simp [hz]

/-- Witness for C4: the empty fetch yields both averages 0. -/
theorem handle_issues_zero_closed_avg_zero_witness :
    (⟨0, 0, 0, 0, 0, 0⟩ : IssueStats).average_issue_duration = 0 ∧
    (⟨0, 0, 0, 0, 0, 0⟩ : IssueStats).average_pr_duration = 0 :=
  ⟨handle_issues_zero_closed_avg_zero.1 [] ⟨0, 0, 0, 0, 0, 0⟩ rfl rfl,
   handle_issues_zero_closed_avg_zero.2 [] ⟨0, 0, 0, 0, 0, 0⟩ rfl rfl⟩

/-- C5: appending an item whose state is `'open'` to the fetched list
increments the open-PR counter (and only it) when the item has a
`pull_request` key, and the open-issue counter (and only it) otherwise. -/
theorem handle_issues_open_pr_counting
    (issues : List Json) (acc : IssueAcc) (issue : Json)
    (hacc : countIssues issues = Except.ok acc)
    (hstate : itemGet issue "state" = Except.ok (Json.str "open")) :
    (hasKey issue "pull_request" = true →
      countIssues (issues ++ [issue]) =
        Except.ok { acc with open_prs := acc.open_prs + 1 }) ∧
    (hasKey issue "pull_request" = false →
      countIssues (issues ++ [issue]) =
        Except.ok { acc with open_issues := acc.open_issues + 1 }) := by
  have hsplit : countIssues (issues ++ [issue]) = processIssue acc issue := by
    unfold countIssues
    rw [List.foldlM_append]
    unfold countIssues at hacc
    rw [hacc, except_bind_ok, List.foldlM_cons]
    simp only [List.foldlM_nil]
    cases hp : processIssue acc issue with
    | ok b => rw [except_bind_ok]; rfl
    | error e => rw [except_bind_error]
  have hproc : processIssue acc issue =
      (itemGet issue "state" >>= fun st =>
        if jeq st "open" then
          if hasKey issue "pull_request" then
            pure { acc with open_prs := acc.open_prs + 1 }
          else
            pure { acc with open_issues := acc.open_issues + 1 }
        else if jeq st "closed" then
          if hasKey issue "pull_request" then do
            let created_at ← parseField issue "created_at"
            let closed_at ← parseField issue "closed_at"
            pure { acc with closed_prs := acc.closed_prs + 1,
                            prs_duration := acc.prs_duration
                              + timedeltaDays created_at closed_at }
          else do
            let created_at ← parseField issue "created_at"
            let closed_at ← parseField issue "closed_at"
            pure { acc with closed_issues := acc.closed_issues + 1,
                            issues_duration := acc.issues_duration
                              + timedeltaDays created_at closed_at }
        else
          pure acc) := rfl
  rw [hproc, hstate, except_bind_ok] at hsplit
  constructor <;> intro hpr <;> rw [hsplit] <;> simp [jeq, hpr, except_pure]

/-- An open pull request: state `'open'` with the `pull_request` marker. -/
def sampleOpenPR : Json :=
  Json.obj [("state", Json.str "open"), ("pull_request", Json.nullJ)]

/-- Witness for C5 at a concrete open pull request. -/
theorem handle_issues_open_pr_counting_witness :
    countIssues ([] ++ [sampleOpenPR]) =
      Except.ok { initAcc with open_prs := initAcc.open_prs + 1 } :=
  (handle_issues_open_pr_counting [] initAcc sampleOpenPR rfl rfl).1 rfl

/-- An item whose state is neither `'open'` nor `'closed'`. -/
def sampleUnknownState : Json := Json.obj [("state", Json.str "unknown")]

/-- C9: an item whose `state` equals neither `'open'` nor `'closed'` (by
Python `==`, so any other string or any non-string) leaves every counter
and duration sum unchanged; consequently the four counts can add up to
strictly less than the number of fetched items. -/
theorem handle_issues_ignores_other_states :
    (∀ acc issue v, itemGet issue "state" = Except.ok v →
      jeq v "open" = false → jeq v "closed" = false →
      processIssue acc issue = Except.ok acc) ∧
    (∃ s, handle_issues_body [sampleUnknownState] = Except.ok s ∧
      s.open_issues + s.closed_issues + s.open_prs + s.closed_prs <
        (List.length [sampleUnknownState])) := by
  constructor
  · intro acc issue v hstate ho hc
    have hproc : processIssue acc issue =
        (itemGet issue "state" >>= fun st =>
          if jeq st "open" then
            if hasKey issue "pull_request" then
              pure { acc with open_prs := acc.open_prs + 1 }
            else
              pure { acc with open_issues := acc.open_issues + 1 }
          else if jeq st "closed" then
            if hasKey issue "pull_request" then do
              let created_at ← parseField issue "created_at"
              let closed_at ← parseField issue "closed_at"
              pure { acc with closed_prs := acc.closed_prs + 1,
                              prs_duration := acc.prs_duration
                                + timedeltaDays created_at closed_at }
            else do
              let created_at ← parseField issue "created_at"
              let closed_at ← parseField issue "closed_at"
              pure { acc with closed_issues := acc.closed_issues + 1,
                              issues_duration := acc.issues_duration
                                + timedeltaDays created_at closed_at }
          else
            pure acc) := rfl
    rw [hproc, hstate, except_bind_ok, ho, hc]
    simp [except_pure]
  · exact ⟨⟨0, 0, 0, 0, 0, 0⟩, rfl, by decide⟩

/-- Witness for C9 at a concrete item with state `'unknown'`. -/
theorem handle_issues_ignores_other_states_witness :
    processIssue initAcc sampleUnknownState = Except.ok initAcc :=
  handle_issues_ignores_other_states.1 initAcc sampleUnknownState
    (Json.str "unknown") rfl rfl rfl

/-- A single closed issue created 2024-01-01 and closed 2024-01-04. -/
def sampleClosedIssue : Json :=
  Json.obj [("state", Json.str "closed"),
            ("created_at", Json.str "2024-01-01T00:00:00Z"),
            ("closed_at", Json.str "2024-01-04T00:00:00Z")]

/-- C3: every closed issue (respectively closed PR) adds exactly
`(closed_at - created_at).days` — the whole-day difference of its two
timestamps — to the corresponding duration sum; a positive closed count
makes the reported average that sum divided by the count; and the single
sample issue closed three days after creation yields
`average_issue_duration = 3`. -/
theorem handle_issues_duration_sum_average :
    (∀ acc issue t1 t2,
      itemGet issue "state" = Except.ok (Json.str "closed") →
      hasKey issue "pull_request" = false →
      parseField issue "created_at" = Except.ok t1 →
      parseField issue "closed_at" = Except.ok t2 →
      processIssue acc issue =
        Except.ok { acc with closed_issues := acc.closed_issues + 1,
                             issues_duration :=
                               acc.issues_duration + timedeltaDays t1 t2 }) ∧
    (∀ acc issue t1 t2,
      itemGet issue "state" = Except.ok (Json.str "closed") →
      hasKey issue "pull_request" = true →
      parseField issue "created_at" = Except.ok t1 →
      parseField issue "closed_at" = Except.ok t2 →
      processIssue acc issue =
        Except.ok { acc with closed_prs := acc.closed_prs + 1,
                             prs_duration :=
                               acc.prs_duration + timedeltaDays t1 t2 }) ∧
    (∀ issues acc s, countIssues issues = Except.ok acc →
      handle_issues_body issues = Except.ok s →
      (0 < acc.closed_issues →
        s.average_issue_duration =
          (acc.issues_duration : Rat) / (acc.closed_issues : Rat)) ∧
      (0 < acc.closed_prs →
        s.average_pr_duration =
          (acc.prs_duration : Rat) / (acc.closed_prs : Rat))) ∧
    handle_issues_body [sampleClosedIssue] =
      Except.ok ⟨0, 1, 0, 0, 3, 0⟩ := by
  refine ⟨?_, ?_, ?_, ?_⟩
  · intro acc issue t1 t2 hstate hpr hca hcl
    show (itemGet issue "state" >>= fun st =>
        if jeq st "open" then
          if hasKey issue "pull_request" then
            pure { acc with open_prs := acc.open_prs + 1 }
          else
            pure { acc with open_issues := acc.open_issues + 1 }
        else if jeq st "closed" then
          if hasKey issue "pull_request" then do
            let created_at ← parseField issue "created_at"
            let closed_at ← parseField issue "closed_at"
            pure { acc with closed_prs := acc.closed_prs + 1,
                            prs_duration := acc.prs_duration
                              + timedeltaDays created_at closed_at }
          else do
            let created_at ← parseField issue "created_at"
            let closed_at ← parseField issue "closed_at"
            pure { acc with closed_issues := acc.closed_issues + 1,
                            issues_duration := acc.issues_duration
                              + timedeltaDays created_at closed_at }
        else
          pure acc) =
      Except.ok { acc with closed_issues := acc.closed_issues + 1,
                           issues_duration :=
                             acc.issues_duration + timedeltaDays t1 t2 }
    rw [hstate, except_bind_ok]
    simp only [jeq, hpr, String.reduceBEq, Bool.false_eq_true, if_false,
      if_true]
    rw [hca, except_bind_ok, hcl, except_bind_ok, except_pure]
  · intro acc issue t1 t2 hstate hpr hca hcl
    show (itemGet issue "state" >>= fun st =>
        if jeq st "open" then
          if hasKey issue "pull_request" then
            pure { acc with open_prs := acc.open_prs + 1 }
          else
            pure { acc with open_issues := acc.open_issues + 1 }
        else if jeq st "closed" then
          if hasKey issue "pull_request" then do
            let created_at ← parseField issue "created_at"
            let closed_at ← parseField issue "closed_at"
            pure { acc with closed_prs := acc.closed_prs + 1,
                            prs_duration := acc.prs_duration
                              + timedeltaDays created_at closed_at }
          else do
            let created_at ← parseField issue "created_at"
            let closed_at ← parseField issue "closed_at"
            pure { acc with closed_issues := acc.closed_issues + 1,
                            issues_duration := acc.issues_duration
                              + timedeltaDays created_at closed_at }
        else
          pure acc) =
      Except.ok { acc with closed_prs := acc.closed_prs + 1,
                           prs_duration :=
                             acc.prs_duration + timedeltaDays t1 t2 }
    rw [hstate, except_bind_ok]
    rw [if_neg (by simp [jeq]), if_pos (by simp [jeq]), if_pos hpr, hca,
      except_bind_ok, hcl, except_bind_ok, except_pure]
  · intro issues acc s hacc hs
    obtain ⟨acc', hacc', rfl⟩ := handle_issues_body_ok hs
    rw [hacc] at hacc'
    injection hacc' with h'
    subst h'
    constructor
    · intro hpos
      simp [hpos]
    · intro hpos
      simp [hpos]
  · have hc : countIssues [sampleClosedIssue] =
        Except.ok ⟨0, 1, 0, 0, 3, 0⟩ := rfl
    unfold handle_issues_body
    rw [hc, except_bind_ok]
    norm_num
    rfl

/-- Witness for C3 at the sample closed issue. -/
theorem handle_issues_duration_sum_average_witness :
    processIssue initAcc sampleClosedIssue =
      Except.ok { initAcc with
        closed_issues := initAcc.closed_issues + 1,
        issues_duration := initAcc.issues_duration
          + timedeltaDays ⟨2024, 1, 1, 0, 0, 0⟩ ⟨2024, 1, 4, 0, 0, 0⟩ } :=
  handle_issues_duration_sum_average.1 initAcc sampleClosedIssue
    ⟨2024, 1, 1, 0, 0, 0⟩ ⟨2024, 1, 4, 0, 0, 0⟩ rfl rfl rfl rfl

/-- A closed issue with `created_at` but no `closed_at` key. -/
def issueMissingClosedAt : Json :=
  Json.obj [("state", Json.str "closed"),
            ("created_at", Json.str "2024-01-01T00:00:00Z")]

/-- C6 counterexample: a closed item lacking `closed_at` is not excluded
from the aggregate — `handle_issues` reads `issue['closed_at']`
unconditionally and fails with a `KeyError` instead of completing. -/
theorem handle_issues_missing_field_cex :
    handle_issues_body [issueMissingClosedAt] =
      Except.error (Err.keyError "closed_at") := rfl

/-- A key reported absent by `hasKey` raises `KeyError` on subscription
(for items that are dictionaries, witnessed by any successful lookup). -/
theorem itemGet_of_hasKey_false {issue : Json} {v : Json} {k k' : String}
    (hdict : itemGet issue k' = Except.ok v) (h : hasKey issue k = false) :
    itemGet issue k = Except.error (Err.keyError k) := by
  cases issue <;> simp [itemGet] at hdict
  case obj fields =>
    simp only [hasKey] at h
    simp only [itemGet]
    cases hg : dictGet fields k with
    | none => rfl
    | some w => rw [hg] at h; simp at h

/-- One loop iteration on a closed item lacking a timestamp field raises. -/
theorem processIssue_missing_field (acc : IssueAcc) (issue : Json)
    (hstate : itemGet issue "state" = Except.ok (Json.str "closed"))
    (hmiss : hasKey issue "created_at" = false ∨
      hasKey issue "closed_at" = false) :
    ∃ e, processIssue acc issue = Except.error e := by
  have hproc : processIssue acc issue =
      (itemGet issue "state" >>= fun st =>
        if jeq st "open" then
          if hasKey issue "pull_request" then
            pure { acc with open_prs := acc.open_prs + 1 }
          else
            pure { acc with open_issues := acc.open_issues + 1 }
        else if jeq st "closed" then
          if hasKey issue "pull_request" then do
            let created_at ← parseField issue "created_at"
            let closed_at ← parseField issue "closed_at"
            pure { acc with closed_prs := acc.closed_prs + 1,
                            prs_duration := acc.prs_duration
                              + timedeltaDays created_at closed_at }
          else do
            let created_at ← parseField issue "created_at"
            let closed_at ← parseField issue "closed_at"
            pure { acc with closed_issues := acc.closed_issues + 1,
                            issues_duration := acc.issues_duration
                              + timedeltaDays created_at closed_at }
        else
          pure acc) := rfl
  rw [hproc, hstate, except_bind_ok]
  rw [if_neg (by simp [jeq]), if_pos (by simp [jeq])]
  cases hmiss with
  | inl hca =>
    have hgetca : itemGet issue "created_at" =
        Except.error (Err.keyError "created_at") :=
      itemGet_of_hasKey_false hstate hca
    have hpf : parseField issue "created_at" =
        Except.error (Err.keyError "created_at") := by
      unfold parseField
      rw [hgetca, except_bind_error]
    cases hasKey issue "pull_request" <;>
      simp only [if_true, if_false, Bool.false_eq_true] <;>
      rw [hpf, except_bind_error] <;>
      exact ⟨_, rfl⟩
  | inr hcl =>
    have hgetcl : itemGet issue "closed_at" =
        Except.error (Err.keyError "closed_at") :=
      itemGet_of_hasKey_false hstate hcl
    have hpf : parseField issue "closed_at" =
        Except.error (Err.keyError "closed_at") := by
      unfold parseField
      rw [hgetcl, except_bind_error]
    cases hasKey issue "pull_request" <;>
      simp only [if_true, if_false, Bool.false_eq_true] <;>
      (cases hfst : parseField issue "created_at" with
        | error e => rw [except_bind_error]; exact ⟨e, rfl⟩
        | ok t =>
          rw [except_bind_ok, hpf, except_bind_error]
          exact ⟨_, rfl⟩)

/-- A fold over `Except` fails as soon as the list contains an element on
which the step function fails from every accumulator. -/
theorem foldlM_error_of_mem {α β : Type} (f : β → α → Except Err β) (x : α)
    (hx : ∀ b, ∃ e, f b x = Except.error e) :
    ∀ (l : List α) (b : β), x ∈ l → ∃ e, l.foldlM f b = Except.error e := by
  intro l
  induction l with
  | nil => intro b h; cases h
  | cons a l ih =>
    intro b h
    rw [List.foldlM_cons]
    cases h with
    | head =>
      obtain ⟨e, he⟩ := hx b
      rw [he, except_bind_error]
      exact ⟨e, rfl⟩
    | tail _ hmem =>
      cases hfa : f b a with
      | error e => rw [except_bind_error]; exact ⟨e, rfl⟩
      | ok b' => rw [except_bind_ok]; exact ih b' hmem

/-- C6 amended: `handle_issues` computes the duration of every closed
item unconditionally — a fetched list containing a closed item that lacks
`created_at` or `closed_at` makes the whole computation fail (`KeyError`),
rather than excluding that item from the aggregate. -/
theorem handle_issues_missing_field_raises
    (issues : List Json) (issue : Json) (hmem : issue ∈ issues)
    (hstate : itemGet issue "state" = Except.ok (Json.str "closed"))
    (hmiss : hasKey issue "created_at" = false ∨
      hasKey issue "closed_at" = false) :
    ∃ e, handle_issues_body issues = Except.error e := by
  obtain ⟨e, he⟩ := foldlM_error_of_mem processIssue issue
    (fun b => processIssue_missing_field b issue hstate hmiss)
    issues initAcc hmem
  refine ⟨e, ?_⟩
  unfold handle_issues_body countIssues
  rw [he, except_bind_error]

/-- Witness for the amended C6 at the concrete item missing `closed_at`. -/
theorem handle_issues_missing_field_raises_witness :
    ∃ e, handle_issues_body [issueMissingClosedAt] = Except.error e :=
  handle_issues_missing_field_raises [issueMissingClosedAt]
    issueMissingClosedAt (List.mem_singleton.mpr rfl) rfl (Or.inr rfl)

/-! ### Pagination claims -/

/-- The next-page URL the loop extracts from a response, or `none` when the
`Link` header is absent or falsy or the pattern does not match. -/
def nextOf (r : Response) : Option String :=
  match r.linkHeader with
  | none => none
  | some link_attr =>
    if link_attr = "" then none else findNextLink link_attr

/-- The item list a page body carries (pages are JSON arrays). -/
def itemsOf (server : Server) (p : String) : List Json :=
  match (server "GET" p).jsonBody with
  | Json.arr items => items
  | _ => []

/-- The page sequence the loop visits: every page but the last carries a
non-empty item array and links to the next path; the last page is the
first terminating one — its body is an empty array, or no next-page URL
can be extracted from it. -/
inductive Chain (server : Server) : List String → Prop where
  | last : ∀ (p : String) (items : List Json),
      (server "GET" p).jsonBody = Json.arr items →
      (items = [] ∨ nextOf (server "GET" p) = none) →
      Chain server [p]
  | cons : ∀ (p q : String) (rest : List String) (items : List Json),
      (server "GET" p).jsonBody = Json.arr items →
      items ≠ [] →
      nextOf (server "GET" p) = some q →
      Chain server (q :: rest) →
      Chain server (p :: q :: rest)

/-- The pagination loop follows a `Chain` exactly: with enough fuel it
terminates, requests exactly the paths of the chain in order (one GET
each), and accumulates the bodies of the non-empty pages in page order. -/
theorem chain_loop (server : Server) :
    ∀ l, Chain server l → ∀ fuel, l.length ≤ fuel →
    handle_repo_item_loop server fuel (l.headD "") =
      Except.ok ((l.map (itemsOf server)).filter (fun x => !x.isEmpty), l) := by
  intro l h
  induction h with
  | last p items hbody hstop =>
    intro fuel hfuel
    obtain ⟨k, rfl⟩ : ∃ k, fuel = k + 1 := by
      cases fuel with
      | zero => simp at hfuel
      | succ k => exact ⟨k, rfl⟩
    show handle_repo_item_loop server (k + 1) p = _
    unfold handle_repo_item_loop
    simp only [execute_request_fst]
    rw [hbody]
    simp only []
    have hitems : itemsOf server p = items := by
      unfold itemsOf; rw [hbody]
    by_cases he : items = []
    · subst he
      simp [hitems]
    · have hne : items.isEmpty = false := by
        cases items with
        | nil => exact absurd rfl he
        | cons a as => rfl
      rw [hne]
      have hnext : nextOf (server "GET" p) = none := hstop.resolve_left he
      simp only [Bool.false_eq_true, if_false]
      unfold nextOf at hnext
      cases hl : (server "GET" p).linkHeader with
      | none =>
        simp [List.filter, hitems, hne]
      | some link_attr =>
        rw [hl] at hnext
        simp only [] at hnext ⊢
        by_cases hemp : link_attr = ""
        · rw [if_pos hemp]
          simp [List.filter, hitems, hne]
        · rw [if_neg hemp] at hnext
          rw [if_neg hemp, hnext]
          simp [List.filter, hitems, hne]
  | cons p q rest items hbody hne hnext _ ih =>
    intro fuel hfuel
    obtain ⟨k, rfl⟩ : ∃ k, fuel = k + 1 := by
      cases fuel with
      | zero => simp at hfuel
      | succ k => exact ⟨k, rfl⟩
    have hk : (q :: rest).length ≤ k := by
      simpa [List.length] using Nat.lt_succ_iff.mp
        (Nat.lt_of_lt_of_le (Nat.lt_of_lt_of_le (Nat.lt_succ_self _)
          (le_refl _)) hfuel)
    show handle_repo_item_loop server (k + 1) p = _
    unfold handle_repo_item_loop
    simp only [execute_request_fst]
    rw [hbody]
    simp only []
    have hitems : itemsOf server p = items := by
      unfold itemsOf; rw [hbody]
    have hnem : items.isEmpty = false := by
      cases items with
      | nil => exact absurd rfl hne
      | cons a as => rfl
    rw [hnem]
    simp only [Bool.false_eq_true, if_false]
    unfold nextOf at hnext
    cases hl : (server "GET" p).linkHeader with
    | none => rw [hl] at hnext; exact absurd hnext (by simp)
    | some link_attr =>
      rw [hl] at hnext
      simp only [] at hnext ⊢
      by_cases hemp : link_attr = ""
      · rw [if_pos hemp] at hnext; exact absurd hnext (by simp)
      · rw [if_neg hemp] at hnext
        rw [if_neg hemp, hnext]
        simp only []
        have := ih k hk
        rw [show (q :: rest).headD "" = q from rfl] at this
        rw [this]
        simp [List.filter, hitems, hnem]

/-- C2: whenever the responses along the walk form a finite chain whose
last page terminates the loop (empty body, or no extractable `rel="next"`
URL), `handle_repo_item` terminates with any fuel beyond the chain length;
the loop issues exactly one GET per chain element (the second component of
the loop result is the requested-path log and equals the chain), appends
each non-empty page's items before looking for the next link — so the
final linked-to page's items are kept and an empty page's are not — and
after each non-final page proceeds to the URL extracted by the
`rel="next"` pattern (the chain's next element, by `nextOf`). -/
theorem handle_repo_item_pagination
    (server : Server) (owner repo suffix : String) (ps : List String)
    (h : Chain server (itemPath owner repo suffix :: ps)) :
    ∀ fuel, ps.length < fuel →
    handle_repo_item_loop server fuel (itemPath owner repo suffix) =
      Except.ok
        (((itemPath owner repo suffix :: ps).map (itemsOf server)).filter
            (fun x => !x.isEmpty),
          itemPath owner repo suffix :: ps) ∧
    handle_repo_item server fuel owner repo suffix =
      Except.ok
        ((((itemPath owner repo suffix :: ps).map (itemsOf server)).filter
            (fun x => !x.isEmpty)).flatten) := by
  intro fuel hfuel
  have hloop := chain_loop server (itemPath owner repo suffix :: ps) h fuel
    (by simpa [List.length] using Nat.succ_le_of_lt hfuel)
  rw [show (itemPath owner repo suffix :: ps).headD "" =
    itemPath owner repo suffix from rfl] at hloop
  refine ⟨hloop, ?_⟩
  unfold handle_repo_item
  rw [hloop]

/-- A two-page releases listing: the first page carries two items and a
`rel="next"` link, the second one item and no `Link` header. -/
def twoPageServer : Server := fun _ path =>
  if path = itemPath "octo" "hello" "releases" then
    { status := 200, text := "",
      jsonBody := Json.arr [Json.num 1, Json.num 2],
      linkHeader :=
        some "<https://api.github.com/repositories/1/releases?page=2>; rel=\"next\"" }
  else if path = "https://api.github.com/repositories/1/releases?page=2" then
    { status := 200, text := "", jsonBody := Json.arr [Json.num 3],
      linkHeader := none }
  else
    { status := 404, text := "", jsonBody := Json.arr [], linkHeader := none }

/-- Witness for C2 on the concrete two-page server: two GETs, visiting
exactly the two chained paths, and both page bodies accumulated. -/
theorem handle_repo_item_pagination_witness :
    handle_repo_item_loop twoPageServer 2
        (itemPath "octo" "hello" "releases") =
      Except.ok
        (((itemPath "octo" "hello" "releases" ::
            ["https://api.github.com/repositories/1/releases?page=2"]).map
              (itemsOf twoPageServer)).filter (fun x => !x.isEmpty),
          itemPath "octo" "hello" "releases" ::
            ["https://api.github.com/repositories/1/releases?page=2"]) ∧
    handle_repo_item twoPageServer 2 "octo" "hello" "releases" =
      Except.ok
        ((((itemPath "octo" "hello" "releases" ::
            ["https://api.github.com/repositories/1/releases?page=2"]).map
              (itemsOf twoPageServer)).filter
                (fun x => !x.isEmpty)).flatten) :=
  handle_repo_item_pagination twoPageServer "octo" "hello" "releases"
    ["https://api.github.com/repositories/1/releases?page=2"]
    (Chain.cons _ _ _ [Json.num 1, Json.num 2] rfl (by simp) rfl
      (Chain.last _ [Json.num 3] rfl (Or.inr rfl)))
    2 (by decide)

/-- C1: when the first page's body holds two items and its `Link` header
matches a `rel="next"` URL, and that URL's page holds one item and no
`Link` header, `handle_repo_item` returns the three items flattened in
page order (with any fuel for at least two requests). -/
theorem handle_repo_item_two_pages
    (server : Server) (owner repo suffix : String)
    (a b c : Json) (link_attr url : String)
    (hbody1 : (server "GET" (itemPath owner repo suffix)).jsonBody =
      Json.arr [a, b])
    (hlink1 : (server "GET" (itemPath owner repo suffix)).linkHeader =
      some link_attr)
    (hmatch : findNextLink link_attr = some url)
    (hbody2 : (server "GET" url).jsonBody = Json.arr [c])
    (hlink2 : (server "GET" url).linkHeader = none)
    (fuel : Nat) (hfuel : 2 ≤ fuel) :
    handle_repo_item server fuel owner repo suffix =
      Except.ok [a, b, c] := by
  have hemp : link_attr ≠ "" := by
    intro he
    rw [he] at hmatch
    exact absurd hmatch (by simp [findNextLink, searchFrom])
  have hnext1 : nextOf (server "GET" (itemPath owner repo suffix)) =
      some url := by
    unfold nextOf
    rw [hlink1]
    show (if link_attr = "" then none else findNextLink link_attr) = some url
    rw [if_neg hemp]
    exact hmatch
  have hnext2 : nextOf (server "GET" url) = none := by
    unfold nextOf
    rw [hlink2]
  have hchain : Chain server (itemPath owner repo suffix :: [url]) :=
    Chain.cons _ _ _ [a, b] hbody1 (by simp) hnext1
      (Chain.last _ [c] hbody2 (Or.inr hnext2))
  have hloop := chain_loop server (itemPath owner repo suffix :: [url])
    hchain fuel (by simpa using hfuel)
  rw [show (itemPath owner repo suffix :: [url]).headD "" =
    itemPath owner repo suffix from rfl] at hloop
  have h1 : itemsOf server (itemPath owner repo suffix) = [a, b] := by
    unfold itemsOf
    rw [hbody1]
  have h2 : itemsOf server url = [c] := by
    unfold itemsOf
    rw [hbody2]
  unfold handle_repo_item
  rw [hloop]
  simp [h1, h2, List.filter]

/-- Witness for C1 on the concrete two-page server. -/
theorem handle_repo_item_two_pages_witness :
    handle_repo_item twoPageServer 2 "octo" "hello" "releases" =
      Except.ok [Json.num 1, Json.num 2, Json.num 3] :=
  handle_repo_item_two_pages twoPageServer "octo" "hello" "releases"
    (Json.num 1) (Json.num 2) (Json.num 3)
    "<https://api.github.com/repositories/1/releases?page=2>; rel=\"next\""
    "https://api.github.com/repositories/1/releases?page=2"
    rfl rfl rfl rfl rfl 2 (by decide)

/-! ### The metadata merge (`get_metadata`) -/

/-- Looking up the key just assigned returns the assigned value. -/
theorem dictGet_dictSet_same (d : List (String × Json)) (k : String)
    (v : Json) : dictGet (dictSet d k v) k = some v := by
  induction d with
  | nil => simp [dictSet, dictGet]
  | cons p rest ih =>
    unfold dictSet
    cases hp : (p.1 == k) with
    | true => simp [dictGet]
    | false => simp [dictGet, hp, ih]

/-- Assignment to one key leaves every other key's value unchanged. -/
theorem dictGet_dictSet_other (d : List (String × Json)) (k : String)
    (v : Json) (k' : String) (h : k' ≠ k) :
    dictGet (dictSet d k v) k' = dictGet d k' := by
  induction d with
  | nil => simp [dictSet, dictGet, Ne.symm h]
  | cons p rest ih =>
    unfold dictSet
    cases hp : (p.1 == k) with
    | true =>
      have hpk : p.1 = k := eq_of_beq hp
      simp [dictGet, hpk, Ne.symm h, ih]
    | false => simp only [Bool.false_eq_true, if_false]; simp [dictGet, ih]

/-- The seven keys `get_metadata` assigns into the payload. -/
def addedKeys : List String :=
  ["release_count", "open_issues", "closed_issues", "open_prs",
   "closed_prs", "average_issue_duration", "average_pr_duration"]

/-- C10: when the main endpoint returns a dictionary payload and the two
fetches succeed, `get_metadata` returns that payload with exactly the
seven computed keys assigned — every key outside `addedKeys` keeps the
value it has in the payload, and each of the seven (including a key such
as `open_issues` that the payload already carries) holds the computed
value, overwriting any previous one. -/
theorem get_metadata_frame
    (server : Server) (fuel : Nat) (owner repo : String)
    (fields : List (String × Json)) (release_count : Nat)
    (stats : IssueStats) (result : List (String × Json))
    (hmain : handle_main_repo_endpoint server owner repo = Json.obj fields)
    (hrel : handle_releases server fuel owner repo =
      Except.ok release_count)
    (hiss : handle_issues server fuel owner repo = Except.ok stats)
    (hres : get_metadata server fuel owner repo = Except.ok result) :
    (∀ k, k ∉ addedKeys → dictGet result k = dictGet fields k) ∧
    dictGet result "release_count" = some (Json.num release_count) ∧
    dictGet result "open_issues" = some (Json.num stats.open_issues) ∧
    dictGet result "closed_issues" = some (Json.num stats.closed_issues) ∧
    dictGet result "open_prs" = some (Json.num stats.open_prs) ∧
    dictGet result "closed_prs" = some (Json.num stats.closed_prs) ∧
    dictGet result "average_issue_duration" =
      some (Json.num stats.average_issue_duration) ∧
    dictGet result "average_pr_duration" =
      some (Json.num stats.average_pr_duration) := by
  unfold get_metadata at hres
  simp only [] at hres
  rw [hmain] at hres
  rw [show asDict (Json.obj fields) = Except.ok fields from rfl,
    except_bind_ok, hrel, except_bind_ok, hiss, except_bind_ok,
    except_pure] at hres
  injection hres with hres'
  subst hres'
  refine ⟨?_, ?_, ?_, ?_, ?_, ?_, ?_, ?_⟩
  · intro k hk
    simp only [addedKeys, List.mem_cons, List.not_mem_nil, or_false,
      not_or] at hk
    obtain ⟨n1, n2, n3, n4, n5, n6, n7⟩ := hk
    rw [dictGet_dictSet_other _ _ _ _ n7, dictGet_dictSet_other _ _ _ _ n6,
      dictGet_dictSet_other _ _ _ _ n5, dictGet_dictSet_other _ _ _ _ n4,
      dictGet_dictSet_other _ _ _ _ n3, dictGet_dictSet_other _ _ _ _ n2,
      dictGet_dictSet_other _ _ _ _ n1]
  · rw [dictGet_dictSet_other _ _ _ _ (by decide),
      dictGet_dictSet_other _ _ _ _ (by decide),
      dictGet_dictSet_other _ _ _ _ (by decide),
      dictGet_dictSet_other _ _ _ _ (by decide),
      dictGet_dictSet_other _ _ _ _ (by decide),
      dictGet_dictSet_other _ _ _ _ (by decide),
      dictGet_dictSet_same]
  · rw [dictGet_dictSet_other _ _ _ _ (by decide),
      dictGet_dictSet_other _ _ _ _ (by decide),
      dictGet_dictSet_other _ _ _ _ (by decide),
      dictGet_dictSet_other _ _ _ _ (by decide),
      dictGet_dictSet_other _ _ _ _ (by decide),
      dictGet_dictSet_same]
  · rw [dictGet_dictSet_other _ _ _ _ (by decide),
      dictGet_dictSet_other _ _ _ _ (by decide),
      dictGet_dictSet_other _ _ _ _ (by decide),
      dictGet_dictSet_other _ _ _ _ (by decide),
      dictGet_dictSet_same]
  · rw [dictGet_dictSet_other _ _ _ _ (by decide),
      dictGet_dictSet_other _ _ _ _ (by decide),
      dictGet_dictSet_other _ _ _ _ (by decide),
      dictGet_dictSet_same]
  · rw [dictGet_dictSet_other _ _ _ _ (by decide),
      dictGet_dictSet_other _ _ _ _ (by decide),
      dictGet_dictSet_same]
  · rw [dictGet_dictSet_other _ _ _ _ (by decide),
      dictGet_dictSet_same]
  · rw [dictGet_dictSet_same]

/-- A server whose main endpoint payload carries a `description` and a
pre-existing `open_issues` value, with empty release and issue listings. -/
def metadataServer : Server := fun _ path =>
  if path = "/repos/octo/hello" then
    { status := 200, text := "",
      jsonBody := Json.obj [("description", Json.str "demo"),
                            ("open_issues", Json.num 99)],
      linkHeader := none }
  else
    { status := 200, text := "", jsonBody := Json.arr [],
      linkHeader := none }

/-- Witness for C10: the `description` field survives the merge unchanged
and the pre-existing `open_issues` value 99 is overwritten with the
computed count 0. -/
theorem get_metadata_frame_witness :
    dictGet [("description", Json.str "demo"),
             ("open_issues", Json.num 0),
             ("release_count", Json.num 0),
             ("closed_issues", Json.num 0),
             ("open_prs", Json.num 0),
             ("closed_prs", Json.num 0),
             ("average_issue_duration", Json.num 0),
             ("average_pr_duration", Json.num 0)] "description" =
      dictGet [("description", Json.str "demo"),
               ("open_issues", Json.num 99)] "description" ∧
    dictGet [("description", Json.str "demo"),
             ("open_issues", Json.num 0),
             ("release_count", Json.num 0),
             ("closed_issues", Json.num 0),
             ("open_prs", Json.num 0),
             ("closed_prs", Json.num 0),
             ("average_issue_duration", Json.num 0),
             ("average_pr_duration", Json.num 0)] "open_issues" =
      some (Json.num 0) :=
  ⟨(get_metadata_frame metadataServer 1 "octo" "hello"
      [("description", Json.str "demo"), ("open_issues", Json.num 99)]
      0 ⟨0, 0, 0, 0, 0, 0⟩ _ rfl rfl rfl rfl).1 "description" (by decide),
   (get_metadata_frame metadataServer 1 "octo" "hello"
      [("description", Json.str "demo"), ("open_issues", Json.num 99)]
      0 ⟨0, 0, 0, 0, 0, 0⟩ _ rfl rfl rfl rfl).2.2.1⟩

end GithubPipeline
